import Mathlib

/-!
Shallow embedding of the appointment-scheduling and reminder-derivation core
of the clinic app (server routes in src/supabase/functions/server/index.tsx
and the client slot helper in src/components/AppointmentManagement.tsx).

Times are modelled as integer milliseconds since the epoch (JS getTime).
Calendar dates are modelled as integer day numbers: the source computes
toISOString().slice(0,10), i.e. the UTC calendar day, which for a time t in
milliseconds is the floor division of t by 86400000. Record ids are strings,
as in the key-value store of the source. A JS missing/empty field used only
for truthiness is modelled as Option (none covers both undefined and the
empty string, which are equally falsy at every use site).
-/

namespace VetClinic

/-- Milliseconds in one day. -/
def msPerDay : Int := 86400000

/-- Milliseconds in the 30 minute conflict buffer of the source. -/
def bufferMs : Int := 30 * 60 * 1000

/-- UTC calendar day number of a time in milliseconds, as produced by
toISOString().slice(0,10) in the source. -/
def dateOf (t : Int) : Int := Int.fdiv t msPerDay

/-- Ceiling integer division, the Math.ceil of the exact quotient for a
positive divisor. -/
def ceilDiv (a b : Int) : Int := -(Int.fdiv (-a) b)

/-- Number of days until time t seen from now, as computed by the source:
Math.ceil of the quotient of the millisecond difference by one day. -/
def daysUntil (t now : Int) : Int := ceilDiv (t - now) msPerDay

/-- User roles of the system. -/
inductive Role
  | owner
  | staff
  | admin
  deriving DecidableEq, Repr

/-- Boolean staff-or-admin test, mirroring the repeated role checks of the
source routes. -/
def Role.isStaff : Role → Bool
  | .staff => true
  | .admin => true
  | .owner => false

/-- An authenticated caller, pre-resolved to id and role as in the spec
interface section (auth middleware is outside the core). -/
structure Actor where
  id : String
  role : Role
  deriving DecidableEq, Repr

/-- Appointment status values. -/
inductive AptStatus
  | pending
  | approved
  | completed
  | cancelled
  deriving DecidableEq, Repr

/-- Persisted user profile record (only the fields the core reads). -/
structure UserRec where
  id : String
  role : Role
  deriving DecidableEq, Repr

/-- Request payload of pet creation. dateOfBirth is a string with the empty
string for absent, matching the source defaulting to the empty string;
microchipId is none when absent or empty (falsy in the source). -/
structure PetData where
  name : String
  species : String
  breed : String
  dateOfBirth : String
  microchipId : Option String
  nextVaccinationDate : Option Int
  deriving DecidableEq, Repr

/-- Persisted pet record. -/
structure PetRec where
  id : String
  ownerId : String
  name : String
  species : String
  breed : String
  dateOfBirth : String
  microchipId : Option String
  nextVaccinationDate : Option Int
  deriving DecidableEq, Repr

/-- Request payload of appointment creation, the contract fields of the
spec interface table (petId, dateTime, reason plus the denormalized pet
name the client sends). -/
structure AptData where
  petId : Option String
  petName : String
  dateTime : Int
  reason : String
  deriving DecidableEq, Repr

/-- Persisted appointment record. -/
structure AptRec where
  id : String
  userId : String
  petId : Option String
  petName : String
  dateTime : Int
  reason : String
  status : AptStatus
  deriving DecidableEq, Repr

/-- Request payload of health record creation. -/
structure RecData where
  petId : String
  title : String
  deriving DecidableEq, Repr

/-- Persisted health record. -/
structure RecRec where
  id : String
  petId : String
  title : String
  addedBy : String
  deriving DecidableEq, Repr

/-- Persisted clinic blackout block, keyed by calendar date. -/
structure BlockRec where
  id : String
  date : Int
  notes : String
  deriving DecidableEq, Repr

/-- Identity of a derived reminder. The source uses the string
appointment:id for appointment reminders and vaccination:petId:date for
vaccination reminders; the two string shapes are disjoint, which the two
constructors model. -/
inductive RemId
  | apt (aptId : String)
  | vac (petId : String) (date : Int)
  deriving DecidableEq, Repr

/-- Reminder priority values. -/
inductive Priority
  | high
  | medium
  deriving DecidableEq, Repr

/-- Derived reminder record. -/
structure Reminder where
  id : RemId
  type : String
  petId : Option String
  appointmentId : Option String
  petName : Option String
  message : String
  dateTime : Int
  priority : Priority
  deriving DecidableEq, Repr

/-- Secondary-index records are modelled as the total map they denote: the
source reads an index record with kv.get and defaults to the empty list,
so an index is a function from key to id list that is empty everywhere it
was never written. -/
def setIdx (f : String → List String) (k : String) (v : List String) :
    String → List String :=
  fun k2 => if k2 = k then v else f k2

/-- Pointwise reading of an updated index map. -/
theorem setIdx_eval (f : String → List String) (k k2 : String)
    (v : List String) : setIdx f k v k2 = if k2 = k then v else f k2 := rfl

/-- Whole persisted state of the core: one typed sub-store per key shape of
the key-value store, plus the hand-maintained index records and the
per-user dismissed reminder sets. recIdxKeys lists the distinct petId keys
under which a health-record index row has been written: the source stores
that row at the key petId followed by :records, and since the client sends
the full pet key as petId, the row key starts with the pet: prefix and is
picked up by the raw prefix scan of the dashboard. -/
structure St where
  pets : List PetRec
  apts : List AptRec
  recs : List RecRec
  blocks : List BlockRec
  users : List UserRec
  petIdx : String → List String
  aptIdx : String → List String
  recIdx : String → List String
  recIdxKeys : List String
  dismissed : String → List RemId

/-- Empty initial state. -/
def initSt : St :=
  ⟨[], [], [], [], [], fun _ => [], fun _ => [], fun _ => [], [],
    fun _ => []⟩

/-- Point lookup of a pet record by key. -/
def getPet (s : St) (k : String) : Option PetRec :=
  s.pets.find? (fun p => p.id = k)

/-- Point lookup of an appointment record by key. -/
def getApt (s : St) (k : String) : Option AptRec :=
  s.apts.find? (fun a => a.id = k)

/-- Pets of a user as the source resolves them: read the index list, batch
get, drop nulls. -/
def userPets (s : St) (u : String) : List PetRec :=
  (s.petIdx u).filterMap (getPet s)

/-- Appointments of a user as the source resolves them: read the index
list, batch get, drop nulls. -/
def userApts (s : St) (u : String) : List AptRec :=
  (s.aptIdx u).filterMap (getApt s)

/-- Dismissed reminder ids of a user, default empty. -/
def dismissedOf (s : St) (u : String) : List RemId :=
  s.dismissed u

/-- Lower-casing of a string, the toLowerCase of the source comparisons. -/
def strLower (x : String) : String := x.map Char.toLower

/-- Case-insensitive match of name, species and breed together with exact
match of dateOfBirth, from the duplicate check of the pet creation route. -/
def sameBasics (cand : PetData) (p : PetRec) : Bool :=
  (strLower p.name = strLower cand.name) &&
  (strLower p.species = strLower cand.species) &&
  (strLower p.breed = strLower cand.breed) &&
  (p.dateOfBirth = cand.dateOfBirth)

/-- Duplicate predicate of the pet creation route: microchip ids present on
both and equal, otherwise the case-insensitive basics plus exact date of
birth. -/
def isDuplicate (cand : PetData) (p : PetRec) : Bool :=
  (match cand.microchipId, p.microchipId with
   | some c, some m => m = c
   | _, _ => false) || sameBasics cand p

/-- Result of pet creation. -/
inductive PetCreateResult
  | ok (s : St) (p : PetRec)
  | duplicate (m : PetRec)

/-- HTTP status of a pet creation result. -/
def PetCreateResult.status : PetCreateResult → Nat
  | .ok _ _ => 200
  | .duplicate _ => 409

/-- Pet record built by the creation route. -/
def mkPet (ownerId newId : String) (d : PetData) : PetRec :=
  { id := newId, ownerId := ownerId, name := d.name, species := d.species,
    breed := d.breed, dateOfBirth := d.dateOfBirth,
    microchipId := d.microchipId,
    nextVaccinationDate := d.nextVaccinationDate }

/-- POST pets: find the first duplicate among the pets resolved from the
owner index; reject 409 with it, else persist the record and append the new
id to the owner index list. -/
def createPet (s : St) (userId newId : String) (d : PetData) :
    PetCreateResult :=
  match (userPets s userId).find? (isDuplicate d) with
  | some m => .duplicate m
  | none =>
    let p := mkPet userId newId d
    let s1 : St := { s with pets := s.pets ++ [p] }
    let s2 : St :=
      { s1 with petIdx :=
          setIdx s1.petIdx userId (s1.petIdx userId ++ [newId]) }
    .ok s2 p

/-- Result of pet deletion. -/
inductive DeleteResult
  | ok (s : St)
  | notFound
  | forbidden

/-- DELETE pets: 404 when the key does not resolve, 403 unless the actor is
the owner or staff or admin, else remove the record and prune the id from
the owner index list. -/
def deletePet (s : St) (actor : Actor) (pid : String) : DeleteResult :=
  match getPet s pid with
  | none => .notFound
  | some pet =>
    if pet.ownerId ≠ actor.id ∧ actor.role.isStaff = false then .forbidden
    else
      let s1 : St := { s with pets := s.pets.filter (fun p => p.id ≠ pid) }
      let pruned := (s1.petIdx pet.ownerId).filter (fun i => i ≠ pid)
      .ok { s1 with petIdx := setIdx s1.petIdx pet.ownerId pruned }

/-- POST health-records: persist the record (no pet existence check in the
source) and append the new id to the record index list of the given pet. -/
def createHealthRecord (s : St) (actor : Actor) (newId : String)
    (d : RecData) : St × RecRec :=
  let r : RecRec :=
    { id := newId, petId := d.petId, title := d.title, addedBy := actor.id }
  let s1 : St := { s with recs := s.recs ++ [r] }
  let s2 : St :=
    { s1 with recIdx :=
        setIdx s1.recIdx d.petId (s1.recIdx d.petId ++ [newId]) }
  let s3 : St :=
    { s2 with recIdxKeys :=
        if d.petId ∈ s2.recIdxKeys then s2.recIdxKeys
        else s2.recIdxKeys ++ [d.petId] }
  (s3, r)

/-- Per-appointment conflict test of the creation route and of the client
slot helper: a cancelled appointment never conflicts, otherwise conflict
means an absolute time difference under the 30 minute buffer. -/
def conflictsWith (requested : Int) (a : AptRec) : Bool :=
  if a.status = .cancelled then false
  else (a.dateTime - requested).natAbs < 30 * 60 * 1000

/-- Conflict scan over every appointment in the store. -/
def hasConflict (s : St) (t : Int) : Bool :=
  s.apts.any (conflictsWith t)

/-- Block scan: some block record carries the calendar date of the
requested time. -/
def isBlocked (s : St) (t : Int) : Bool :=
  s.blocks.any (fun b => b.date = dateOf t)

/-- Client-side slot availability from AppointmentManagement: false on a
blocked day, else true when no appointment conflicts. -/
def isSlotAvailable (blocks : List BlockRec) (apts : List AptRec)
    (t : Int) : Bool :=
  if blocks.any (fun b => b.date = dateOf t) then false
  else ! apts.any (conflictsWith t)

/-- Result of appointment creation. -/
inductive CreateAptResult
  | ok (s : St) (a : AptRec)
  | blockedDay
  | conflict
  | petNotFound

/-- HTTP status of an appointment creation result. -/
def CreateAptResult.status : CreateAptResult → Nat
  | .ok _ _ => 200
  | .blockedDay => 409
  | .conflict => 409
  | .petNotFound => 404

/-- Resolution of the effective userId of a new appointment: a staff or
admin creator supplying a petId books on behalf of the owner of the pet
when the pet resolves and carries a truthy ownerId; a missing pet yields
none, which the route answers with 404. -/
def resolveUserId (s : St) (actor : Actor) (d : AptData) : Option String :=
  if actor.role.isStaff then
    match d.petId with
    | some pid =>
      match getPet s pid with
      | none => none
      | some pet =>
        some (if pet.ownerId ≠ "" then pet.ownerId else actor.id)
    | none => some actor.id
  else some actor.id

/-- POST appointments: 409 on a blocked date, then 409 on a conflict with
any non-cancelled appointment, then for a staff or admin creator with a
petId resolve the pet (404 when absent) and take its ownerId as the
userId of the appointment when that ownerId is truthy; persist with status
pending and append the new id to the index list of the resolved user. -/
def createAppointment (s : St) (actor : Actor) (newId : String)
    (d : AptData) : CreateAptResult :=
  if isBlocked s d.dateTime then .blockedDay
  else if hasConflict s d.dateTime then .conflict
  else
    match resolveUserId s actor d with
    | none => .petNotFound
    | some uid =>
      let a : AptRec :=
        { id := newId, userId := uid, petId := d.petId,
          petName := d.petName, dateTime := d.dateTime, reason := d.reason,
          status := .pending }
      let s1 : St := { s with apts := s.apts ++ [a] }
      let s2 : St :=
        { s1 with aptIdx :=
            setIdx s1.aptIdx uid (s1.aptIdx uid ++ [newId]) }
      .ok s2 a

/-- Partial update payload of the appointment update route, the fields the
caller may send; absent fields leave the record unchanged (object spread in
the source). -/
structure AptUpdate where
  status : Option AptStatus
  dateTime : Option Int
  reason : Option String
  petName : Option String
  deriving DecidableEq, Repr

/-- Merge of a partial update into an appointment record, the object spread
of the source. -/
def applyUpdate (a : AptRec) (u : AptUpdate) : AptRec :=
  { a with status := u.status.getD a.status,
           dateTime := u.dateTime.getD a.dateTime,
           reason := u.reason.getD a.reason,
           petName := u.petName.getD a.petName }

/-- Result of appointment update. -/
inductive UpdateAptResult
  | ok (s : St) (a : AptRec)
  | notFound
  | forbidden

/-- HTTP status of an appointment update result. -/
def UpdateAptResult.status : UpdateAptResult → Nat
  | .ok _ _ => 200
  | .notFound => 404
  | .forbidden => 403

/-- PUT appointments: 404 when the key does not resolve, 403 unless the
actor is the userId of the appointment or staff or admin, else overwrite
the record with the merge; no availability, conflict or block check of any
kind. -/
def updateAppointment (s : St) (actor : Actor) (aid : String)
    (u : AptUpdate) : UpdateAptResult :=
  match getApt s aid with
  | none => .notFound
  | some a =>
    if a.userId ≠ actor.id ∧ actor.role.isStaff = false then .forbidden
    else
      let a2 := applyUpdate a u
      .ok { s with apts := s.apts.map (fun x => if x.id = aid then a2 else x) }
        a2

/-- Appointment reminder record built by the reminder route at a given
appointment. The source normalizes the reminder id to the string
appointment:id, which coincides with the record key shape modelled by
RemId.apt. -/
def mkAptReminder (now : Int) (a : AptRec) : Reminder :=
  let d := daysUntil a.dateTime now
  { id := .apt a.id, type := "appointment", petId := a.petId,
    appointmentId := some a.id, petName := none,
    message := s!"Upcoming appointment in {d} days",
    dateTime := a.dateTime,
    priority := if d ≤ 1 then .high else .medium }

/-- Emission test for one appointment of the pending-filtered list: emit
when the day distance is between 0 and 7 and the id is not dismissed. -/
def aptReminder (now : Int) (dism : List RemId) (a : AptRec) :
    Option Reminder :=
  if daysUntil a.dateTime now ≤ 7 ∧ 0 ≤ daysUntil a.dateTime now then
    if RemId.apt a.id ∈ dism then none else some (mkAptReminder now a)
  else none

/-- Vaccination reminder record built by the reminder route at a given pet
and due date. -/
def mkVacReminder (now : Int) (p : PetRec) (v : Int) : Reminder :=
  let d := daysUntil v now
  let k := (-d).toNat
  let nm := p.name
  { id := .vac p.id v, type := "vaccination", petId := some p.id,
    appointmentId := none, petName := some p.name,
    message := if 0 ≤ d then
        s!"{nm}\x27s vaccination due in {d} days"
      else s!"{nm}\x27s vaccination is {k} days overdue",
    dateTime := v,
    priority := if d ≤ 0 then .high else .medium }

/-- Emission test for one pet: the source first filters pets carrying a
next vaccination date and then checks the window, merged here into one
match; emit when the day distance is between -7 and 14 and the id is not
dismissed. -/
def vacReminder (now : Int) (dism : List RemId) (p : PetRec) :
    Option Reminder :=
  match p.nextVaccinationDate with
  | none => none
  | some v =>
    if daysUntil v now ≤ 14 ∧ -7 ≤ daysUntil v now then
      if RemId.vac p.id v ∈ dism then none else some (mkVacReminder now p v)
    else none

/-- GET reminders: resolve the pets and appointments of the user through
the index lists, filter appointments to status pending, emit windowed
appointment reminders then windowed vaccination reminders, suppressing
dismissed ids. -/
def getReminders (s : St) (u : String) (now : Int) : List Reminder :=
  let pets := userPets s u
  let apts := userApts s u
  let dism := dismissedOf s u
  ((apts.filter (fun a => a.status = .pending)).filterMap
      (aptReminder now dism))
    ++ pets.filterMap (vacReminder now dism)

/-- Key test of the raw pet: prefix scan: the first four characters of the
key are p, e, t and a colon, the startsWith of the source scan expressed
on the character list. -/
def petKeyMatch (k : String) : Bool :=
  decide (k.data.take 4 = "pet:".data)

/-- Missed-appointment predicate of the dashboard route: status pending and
time strictly before now. -/
def isMissed (now : Int) (a : AptRec) : Bool :=
  a.status = .pending && a.dateTime < now

/-- Local midnight of a time under a fixed timezone offset in milliseconds,
the setHours(0,0,0,0) of the source. -/
def localDayStart (tzOff t : Int) : Int :=
  Int.fdiv (t + tzOff) msPerDay * msPerDay - tzOff

/-- Aggregate counters of the dashboard route. -/
structure Stats where
  totalPets : Nat
  totalClients : Nat
  todayAppointments : Nat
  weekAppointments : Nat
  pendingAppointments : Nat
  completedAppointments : Nat
  missedAppointments : Nat
  vaccinationsDue : Nat
  deriving DecidableEq, Repr

/-- GET dashboard stats: counts over full scans of the stores. The source
derives the day boundary from the wall clock in the local timezone; the
model takes now and the timezone offset as inputs and computes the same
boundary. The pet: prefix scan behind totalPets matches both the pet
records whose key starts with pet: (the server mints every pet key that
way) and the health-record index rows, whose key is the petId followed by
:records and therefore inherits the pet: prefix from a full pet key. -/
def dashboardStats (s : St) (now tzOff : Int) : Stats :=
  let today := localDayStart tzOff now
  let weekAgo := today - 7 * msPerDay
  { totalPets :=
      (s.pets.filter (fun p => petKeyMatch p.id)).length
        + (s.recIdxKeys.filter (fun k => petKeyMatch (k ++ ":records"))).length,
    totalClients := (s.users.filter (fun u => u.role = .owner)).length,
    todayAppointments :=
      (s.apts.filter (fun a => localDayStart tzOff a.dateTime = today)).length,
    weekAppointments :=
      (s.apts.filter
        (fun a => weekAgo ≤ a.dateTime ∧ a.dateTime ≤ now)).length,
    pendingAppointments :=
      (s.apts.filter (fun a => a.status = .pending)).length,
    completedAppointments :=
      (s.apts.filter (fun a => a.status = .completed)).length,
    missedAppointments := (s.apts.filter (isMissed now)).length,
    vaccinationsDue :=
      (s.pets.filter (fun p =>
        match p.nextVaccinationDate with
        | none => false
        | some v =>
          daysUntil v now ≤ 14 ∧ -7 ≤ daysUntil v now)).length }

/-- One externally-triggered mutation of the stores, the operations the
index-consistency property quantifies over. -/
inductive Op
  | createPet (userId newId : String) (d : PetData)
  | deletePet (actor : Actor) (pid : String)
  | createApt (actor : Actor) (newId : String) (d : AptData)
  | createRec (actor : Actor) (newId : String) (d : RecData)
  deriving Repr

/-- Effect of one operation on the state; a rejected operation leaves the
state unchanged. -/
def step (s : St) : Op → St
  | .createPet u i d =>
    match createPet s u i d with
    | .ok s2 _ => s2
    | .duplicate _ => s
  | .deletePet a p =>
    match deletePet s a p with
    | .ok s2 => s2
    | _ => s
  | .createApt a i d =>
    match createAppointment s a i d with
    | .ok s2 _ => s2
    | _ => s
  | .createRec a i d => (createHealthRecord s a i d).1

/-- Run of a sequence of operations. -/
def run (s : St) : List Op → St
  | [] => s
  | op :: rest => run (step s op) rest

/-- Freshness of the id a creation brings, which the source guarantees by
minting keys from the creation timestamp. -/
def freshOk (s : St) : Op → Bool
  | .createPet _ i _ => s.pets.all (fun p => p.id ≠ i)
  | .deletePet _ _ => true
  | .createApt _ i _ => s.apts.all (fun a => a.id ≠ i)
  | .createRec _ i _ => s.recs.all (fun r => r.id ≠ i)

/-- Well-formed run: every creation along the run uses a fresh id. -/
def wfRun (s : St) : List Op → Bool
  | [] => true
  | op :: rest => freshOk s op && wfRun (step s op) rest

/-- Consistency of the per-owner pet index lists with the live pet
records. -/
def petIdxConsistent (s : St) : Prop :=
  ∀ o i, i ∈ s.petIdx o ↔ ∃ p ∈ s.pets, p.id = i ∧ p.ownerId = o

/-- Consistency of the per-user appointment index lists with the live
appointment records. -/
def aptIdxConsistent (s : St) : Prop :=
  ∀ u i, i ∈ s.aptIdx u ↔ ∃ a ∈ s.apts, a.id = i ∧ a.userId = u

/-- Consistency of the per-pet health record index lists with the live
health records. -/
def recIdxConsistent (s : St) : Prop :=
  ∀ q i, i ∈ s.recIdx q ↔ ∃ r ∈ s.recs, r.id = i ∧ r.petId = q

/-- Joint index consistency: every index list holds exactly the ids of the
live records referencing its key. -/
def indexConsistent (s : St) : Prop :=
  petIdxConsistent s ∧ aptIdxConsistent s ∧ recIdxConsistent s

/-- Full inductive invariant: key uniqueness of each store together with
index consistency. -/
def Inv (s : St) : Prop :=
  (s.pets.map (fun p => p.id)).Nodup ∧
  (s.apts.map (fun a => a.id)).Nodup ∧
  (s.recs.map (fun r => r.id)).Nodup ∧
  indexConsistent s

/-- Example owner actor for concrete evaluations. -/
def exOwner : Actor := ⟨"u1", .owner⟩

/-- Example staff actor for concrete evaluations. -/
def exStaff : Actor := ⟨"staff1", .staff⟩

/-- Example pet creation payload. -/
def exPetData : PetData :=
  { name := "Rex", species := "Dog", breed := "Lab", dateOfBirth := "2020-01-01",
    microchipId := some "chip-1", nextVaccinationDate := some 86400000 }

/-- Example appointment creation payload pointing at a missing pet. -/
def exAptMissingPet : AptData :=
  { petId := some "pet:missing", petName := "Rex", dateTime := 0,
    reason := "checkup" }

/-- Example state holding one pending appointment seven days and a few
hours in the past, exercising the dashboard week window boundary. -/
def exWeekSt : St :=
  { initSt with apts :=
      [{ id := "appointment:1", userId := "u1", petId := none,
         petName := "Rex", dateTime := -600000000, reason := "r",
         status := .pending }] }

/-- Example state holding one pending appointment at time zero. -/
def exAptSt : St :=
  { initSt with apts :=
      [{ id := "appointment:1", userId := "u1", petId := none,
         petName := "Rex", dateTime := 0, reason := "r",
         status := .pending }] }

/-- Example state blocking calendar day zero. -/
def exBlockSt : St :=
  { initSt with blocks :=
      [{ id := "block:day0", date := 0, notes := "" }] }

/-- Example persisted pet owned by user u1. -/
def exPetA : PetRec :=
  { id := "pet:u1:1", ownerId := "u1", name := "Rex", species := "Dog",
    breed := "Lab", dateOfBirth := "2020-01-01",
    microchipId := some "chip-1", nextVaccinationDate := some 86400000 }

/-- Example pending appointment of user u1 one day ahead of time zero. -/
def exApt1 : AptRec :=
  { id := "appointment:1", userId := "u1", petId := some "pet:u1:1",
    petName := "Rex", dateTime := 86400000, reason := "r",
    status := .pending }

/-- Example cancelled appointment. -/
def exCancelledApt : AptRec :=
  { id := "appointment:2", userId := "u1", petId := none,
    petName := "Rex", dateTime := 0, reason := "r", status := .cancelled }

/-- Example state where user u1 owns one pet and one pending appointment,
with both index lists populated. -/
def exUserSt : St :=
  { initSt with
      pets := [exPetA],
      apts := [exApt1],
      petIdx := setIdx (fun _ => []) "u1" ["pet:u1:1"],
      aptIdx := setIdx (fun _ => []) "u1" ["appointment:1"] }

/-- Example operation trace: create a pet, attach a health record, let a
staff member book an appointment for the pet, then delete the pet. -/
def exOps : List Op :=
  [ .createPet "u1" "pet:u1:1" exPetData,
    .createRec exOwner "record:pet:u1:1:1" { petId := "pet:u1:1", title := "t" },
    .createApt exStaff "appointment:9"
      { petId := some "pet:u1:1", petName := "Rex",
        dateTime := 1000000000, reason := "r" },
    .deletePet exOwner "pet:u1:1" ]

/-- Example state where the single pet of user u1 carries one health
record, so a record-index row exists under the key pet:u1:1:records,
which the raw pet: prefix scan of the dashboard also matches. -/
def exRecSt : St :=
  { initSt with
      pets := [exPetA],
      recs := [{ id := "record:pet:u1:1:1", petId := "pet:u1:1",
                 title := "t", addedBy := "u1" }],
      recIdx := setIdx (fun _ => []) "pet:u1:1" ["record:pet:u1:1:1"],
      recIdxKeys := ["pet:u1:1"] }

end VetClinic

namespace VetClinic

/-- C1. For every existing non-cancelled appointment, a creation request
within 30 minutes of it is rejected with HTTP 409, and an existing
non-cancelled appointment 30 minutes or more away never conflicts; the
buffer is symmetric in the two times and independent of pets and owners. -/
theorem buffer_30min_conflict (s : St) (actor : Actor) (newId : String)
    (d : AptData) (a : AptRec) (ha : a ∈ s.apts)
    (hst : ¬ a.status = .cancelled) :
    ((a.dateTime - d.dateTime).natAbs < 30 * 60 * 1000 →
        (createAppointment s actor newId d).status = 409)
    ∧ (30 * 60 * 1000 ≤ (a.dateTime - d.dateTime).natAbs →
        conflictsWith d.dateTime a = false)
    ∧ (a.dateTime - d.dateTime).natAbs = (d.dateTime - a.dateTime).natAbs := by
  refine ⟨?_, ?_, ?_⟩
  · intro hlt
    have hc : hasConflict s d.dateTime = true := by
      unfold hasConflict
      rw [List.any_eq_true]
      refine ⟨a, ha, ?_⟩
      unfold conflictsWith
      rw [if_neg hst]
      exact decide_eq_true hlt
    unfold createAppointment
    cases hb : isBlocked s d.dateTime
    · simp [hb, hc, CreateAptResult.status]
    · simp [hb, CreateAptResult.status]
  · intro hge
    unfold conflictsWith
    rw [if_neg hst]
    exact decide_eq_false (Nat.not_lt.mpr hge)
  · omega

theorem buffer_30min_conflict_witness :
    ({ id := "appointment:1", userId := "u1", petId := none,
       petName := "Rex", dateTime := 0, reason := "r",
       status := AptStatus.pending } : AptRec) ∈ exAptSt.apts ∧
    (((0 : Int) - 600000).natAbs < 30 * 60 * 1000 →
      (createAppointment exAptSt exOwner "appointment:2"
          { petId := none, petName := "Rex", dateTime := 600000,
            reason := "r" }).status = 409) := by
  have h := buffer_30min_conflict exAptSt exOwner "appointment:2"
    { petId := none, petName := "Rex", dateTime := 600000, reason := "r" }
    { id := "appointment:1", userId := "u1", petId := none,
      petName := "Rex", dateTime := 0, reason := "r",
      status := AptStatus.pending }
    (by decide) (by decide)
  exact ⟨by decide, h.1⟩

/-- C4. A block on the calendar date of the candidate time makes creation
fail with the blocked-day 409 result, and makes the client slot helper
report the slot unavailable whatever the appointment list holds. -/
theorem blackout_precedence (s : St) (actor : Actor) (newId : String)
    (d : AptData) (b : BlockRec) (hb : b ∈ s.blocks)
    (hd : b.date = dateOf d.dateTime) :
    createAppointment s actor newId d = .blockedDay
    ∧ (createAppointment s actor newId d).status = 409
    ∧ ∀ apts : List AptRec, isSlotAvailable s.blocks apts d.dateTime = false := by
  have hblk : s.blocks.any (fun x => x.date = dateOf d.dateTime) = true := by
    rw [List.any_eq_true]
    exact ⟨b, hb, decide_eq_true hd⟩
  have hbl : isBlocked s d.dateTime = true := hblk
  refine ⟨?_, ?_, ?_⟩
  · unfold createAppointment
    simp [hbl]
  · unfold createAppointment
    simp [hbl, CreateAptResult.status]
  · intro apts
    unfold isSlotAvailable
    simp [hblk]

theorem blackout_precedence_witness :
    ({ id := "block:day0", date := 0, notes := "" } : BlockRec)
        ∈ exBlockSt.blocks ∧
    createAppointment exBlockSt exOwner "appointment:1"
        { petId := none, petName := "Rex", dateTime := 1000,
          reason := "r" } = .blockedDay := by
  have h := blackout_precedence exBlockSt exOwner "appointment:1"
    { petId := none, petName := "Rex", dateTime := 1000, reason := "r" }
    { id := "block:day0", date := 0, notes := "" }
    (by decide) (by decide)
  exact ⟨by decide, h.1⟩

/-- C8 counterexample. An owner actor supplying a petId that resolves to no
pet record still creates the appointment with status 200: the 404 path of
the source only runs for staff or admin creators. -/
theorem unknown_pet_owner_not_404 :
    getPet initSt "pet:missing" = none
    ∧ exOwner.role = .owner
    ∧ (createAppointment initSt exOwner "appointment:1"
        exAptMissingPet).status = 200 := by
  refine ⟨rfl, rfl, rfl⟩

/-- C8 amended. When the actor is staff or admin, the supplied petId does
not resolve, and neither the block nor the conflict check fires first, the
creation fails with 404 and no appointment is created. -/
theorem unknown_pet_staff_404 (s : St) (actor : Actor) (newId : String)
    (d : AptData) (pid : String) (hrole : actor.role.isStaff = true)
    (hpid : d.petId = some pid) (hget : getPet s pid = none)
    (hnb : isBlocked s d.dateTime = false)
    (hnc : hasConflict s d.dateTime = false) :
    createAppointment s actor newId d = .petNotFound
    ∧ (createAppointment s actor newId d).status = 404 := by
  have h3 : createAppointment s actor newId d = .petNotFound := by
    unfold createAppointment resolveUserId
    simp [hnb, hnc, hrole, hpid, hget]
  refine ⟨h3, ?_⟩
  rw [h3]
  rfl

theorem unknown_pet_staff_404_witness :
    exStaff.role.isStaff = true ∧
    createAppointment initSt exStaff "appointment:1" exAptMissingPet
      = .petNotFound := by
  have h := unknown_pet_staff_404 initSt exStaff "appointment:1"
    exAptMissingPet "pet:missing" (by decide) (by decide) (by decide)
    (by decide) (by decide)
  exact ⟨by decide, h.1⟩

/-- C3. When neither the block nor the conflict check fires, a staff or
admin actor booking with the petId of a pet with a truthy owner creates an
appointment whose userId is that owner, with the new id appended to the
owner index list; an owner actor creates an appointment whose userId is the
actor. -/
theorem appointment_ownership (s : St) (actor : Actor) (newId : String)
    (d : AptData)
    (hnb : isBlocked s d.dateTime = false)
    (hnc : hasConflict s d.dateTime = false) :
    (∀ pid pet, actor.role.isStaff = true → d.petId = some pid →
      getPet s pid = some pet → pet.ownerId ≠ "" →
      ∃ s2 a, createAppointment s actor newId d = .ok s2 a
        ∧ a.userId = pet.ownerId
        ∧ newId ∈ s2.aptIdx pet.ownerId)
    ∧ (actor.role = .owner →
      ∃ s2 a, createAppointment s actor newId d = .ok s2 a
        ∧ a.userId = actor.id) := by
  constructor
  · intro pid pet hrole hpid hget hne
    unfold createAppointment resolveUserId
    rw [hnb, hnc]
    simp only [Bool.false_eq_true, if_false, hrole, if_true, hpid, hget,
      if_pos hne]
    refine ⟨_, _, rfl, rfl, ?_⟩
    simp [setIdx]
  · intro hrole
    unfold createAppointment resolveUserId
    rw [hnb, hnc]
    have hstaff : actor.role.isStaff = false := by rw [hrole]; rfl
    simp only [Bool.false_eq_true, if_false, hstaff]
    exact ⟨_, _, rfl, rfl⟩

theorem appointment_ownership_witness :
    isBlocked exUserSt 10000000000 = false
    ∧ (∃ s2 a, createAppointment exUserSt exStaff "appointment:3"
        { petId := some "pet:u1:1", petName := "Rex",
          dateTime := 10000000000, reason := "r" } = .ok s2 a
        ∧ a.userId = exPetA.ownerId
        ∧ "appointment:3" ∈ s2.aptIdx exPetA.ownerId) := by
  have h := appointment_ownership exUserSt exStaff "appointment:3"
    { petId := some "pet:u1:1", petName := "Rex",
      dateTime := 10000000000, reason := "r" }
    (by decide) (by decide)
  exact ⟨by decide, h.1 "pet:u1:1" exPetA (by decide) rfl (by decide)
    (by decide)⟩

/-- C5. The duplicate predicate of pet creation holds exactly when the
microchip ids are present on both records and equal or when name, species
and breed match case-insensitively and the date of birth exactly; creation
is rejected with 409 carrying the first match when some owned pet matches
and succeeds when none does. -/
theorem duplicate_pet_detection (s : St) (u newId : String) (d : PetData) :
    (∀ p : PetRec, isDuplicate d p = true ↔
      ((∃ c, d.microchipId = some c ∧ p.microchipId = some c) ∨
       (strLower p.name = strLower d.name ∧
        strLower p.species = strLower d.species ∧
        strLower p.breed = strLower d.breed ∧
        p.dateOfBirth = d.dateOfBirth)))
    ∧ ((∃ p ∈ userPets s u, isDuplicate d p = true) →
        ∃ m, createPet s u newId d = .duplicate m
          ∧ (createPet s u newId d).status = 409
          ∧ (userPets s u).find? (isDuplicate d) = some m)
    ∧ ((∀ p ∈ userPets s u, isDuplicate d p = false) →
        ∃ s2 pr, createPet s u newId d = .ok s2 pr
          ∧ (createPet s u newId d).status = 200) := by
  refine ⟨?_, ?_, ?_⟩
  · intro p
    unfold isDuplicate sameBasics
    cases hd : d.microchipId with
    | none => simp [and_assoc]
    | some c =>
      cases hp : p.microchipId with
      | none => simp [and_assoc]
      | some m => simp [and_assoc]
  · rintro ⟨p, hp, hdup⟩
    have hsome : ((userPets s u).find? (isDuplicate d)).isSome := by
      rw [List.find?_isSome]
      exact ⟨p, hp, hdup⟩
    obtain ⟨m, hm⟩ := Option.isSome_iff_exists.mp hsome
    refine ⟨m, ?_, ?_, hm⟩
    · unfold createPet
      rw [hm]
    · unfold createPet
      rw [hm]
      rfl
  · intro hnone
    have hfind : (userPets s u).find? (isDuplicate d) = none := by
      rw [List.find?_eq_none]
      intro p hp
      rw [hnone p hp]
      exact Bool.false_ne_true
    cases hE : createPet s u newId d with
    | duplicate m =>
      exfalso
      unfold createPet at hE
      rw [hfind] at hE
      cases hE
    | ok s2 pr =>
      exact ⟨s2, pr, rfl, rfl⟩

theorem duplicate_pet_detection_witness :
    (exPetA ∈ userPets exUserSt "u1" ∧ isDuplicate exPetData exPetA = true)
    ∧ ∃ m, createPet exUserSt "u1" "pet:u1:2" exPetData = .duplicate m
        ∧ (createPet exUserSt "u1" "pet:u1:2" exPetData).status = 409 := by
  have h := (duplicate_pet_detection exUserSt "u1" "pet:u1:2" exPetData).2.1
    ⟨exPetA, by decide, by decide⟩
  obtain ⟨m, h1, h2, _⟩ := h
  exact ⟨⟨by decide, by decide⟩, m, h1, h2⟩

theorem filter_ne_of_false {α : Type} [DecidableEq α] (l : List α)
    (p : α → Bool) (a : α) (h : p a = false) :
    (l.filter (fun x => x ≠ a)).filter p = l.filter p := by
  induction l with
  | nil => rfl
  | cons c t ih =>
    by_cases hc : c = a
    · subst hc
      rw [List.filter_cons_of_neg (by simp),
        List.filter_cons_of_neg (by simp [h]), ih]
    · rw [List.filter_cons_of_pos (by simp [hc])]
      by_cases hpc : p c = true
      · rw [List.filter_cons_of_pos hpc, List.filter_cons_of_pos hpc, ih]
      · rw [List.filter_cons_of_neg hpc, List.filter_cons_of_neg hpc, ih]

theorem any_ne_of_false {α : Type} [DecidableEq α] (l : List α)
    (p : α → Bool) (a : α) (h : p a = false) :
    (l.filter (fun x => x ≠ a)).any p = l.any p := by
  induction l with
  | nil => rfl
  | cons c t ih =>
    by_cases hc : c = a
    · subst hc
      rw [List.filter_cons_of_neg (by simp), ih, List.any_cons, h]
      simp
    · rw [List.filter_cons_of_pos (by simp [hc]), List.any_cons,
        List.any_cons, ih]

/-- Membership characterization of the reminder list: a reminder is
emitted either by some pending appointment or by some pet of the user. -/
theorem mem_getReminders (s : St) (u : String) (now : Int) (r : Reminder) :
    r ∈ getReminders s u now ↔
      ((∃ x ∈ (userApts s u).filter (fun a => a.status = .pending),
          aptReminder now (dismissedOf s u) x = some r)
        ∨ (∃ p ∈ userPets s u,
            vacReminder now (dismissedOf s u) p = some r)) := by
  unfold getReminders
  simp [List.mem_append, List.mem_filterMap]

/-- C9 counterexample. The week clause fails: with now at noon of epoch
day zero in UTC and a pending appointment a bit more than seven days old,
the dashboard counts it in the week window although it is outside the
closed interval from now minus seven days to now, because the code window
starts at midnight of the current day minus seven days. The total-pets
clause fails too: with one pet that has one health record, the pet:
prefix scan also counts the record-index row, so totalPets exceeds the
number of Pet records. -/
theorem dashboard_counts_counterexample :
    ((dashboardStats exWeekSt 43200000 0).weekAppointments ≠
      (exWeekSt.apts.filter (fun a =>
        43200000 - 7 * msPerDay ≤ a.dateTime ∧ a.dateTime ≤ 43200000)).length)
    ∧ localDayStart 0 43200000 = 0
    ∧ ((dashboardStats exRecSt 0 0).totalPets ≠ exRecSt.pets.length) := by
  refine ⟨?_, ?_, ?_⟩
  · decide
  · decide
  · decide

/-- C9 amended. The week count of the dashboard equals the number of
appointments between midnight of the current day minus seven days and now
inclusive; the missed count equals the number of pending appointments
strictly before now; and the total pet count equals the number of rows
the pet: prefix scan matches, namely the pet records whose key starts
with pet: (every server-minted pet key does) plus the health-record index
rows whose petId key completes to a key with the pet: prefix. -/
theorem dashboard_counts (s : St) (now tzOff : Int) :
    (dashboardStats s now tzOff).weekAppointments =
      s.apts.countP (fun a =>
        localDayStart tzOff now - 7 * msPerDay ≤ a.dateTime
          ∧ a.dateTime ≤ now)
    ∧ (dashboardStats s now tzOff).missedAppointments =
      s.apts.countP (fun a => a.status = .pending ∧ a.dateTime < now)
    ∧ (dashboardStats s now tzOff).totalPets =
      s.pets.countP (fun p => petKeyMatch p.id)
        + s.recIdxKeys.countP (fun k => petKeyMatch (k ++ ":records")) := by
  refine ⟨?_, ?_, ?_⟩
  · rw [List.countP_eq_length_filter]
    rfl
  · rw [List.countP_eq_length_filter]
    show (s.apts.filter (isMissed now)).length =
      (s.apts.filter
        (fun a => decide (a.status = .pending ∧ a.dateTime < now))).length
    congr 1
    apply List.filter_congr
    intro x _
    unfold isMissed
    simp [Bool.decide_and]
  · rw [List.countP_eq_length_filter, List.countP_eq_length_filter]
    rfl

theorem find?_map_replace (l : List AptRec) (aid : String) (a2 : AptRec)
    (h2 : a2.id = aid) (hs : ∃ x ∈ l, x.id = aid) :
    (l.map (fun x => if x.id = aid then a2 else x)).find?
      (fun x => x.id = aid) = some a2 := by
  induction l with
  | nil =>
    obtain ⟨x, hx, _⟩ := hs
    cases hx
  | cons c t ih =>
    by_cases hc : c.id = aid
    · simp [List.map_cons, hc, List.find?_cons, h2]
    · obtain ⟨x, hx, hxid⟩ := hs
      rcases List.mem_cons.mp hx with hh | hh
      · subst hh
        exact absurd hxid hc
      · simp only [List.map_cons, if_neg hc]
        rw [List.find?_cons_of_neg _ (by simpa using hc)]
        exact ih ⟨x, hh, hxid⟩

/-- C10. Appointment update never answers 409 and performs no
availability, conflict or block check: its result is success, 404 or 403,
and every authorized update of an existing appointment succeeds and
persists the merged record whatever the other appointments and blocks
hold. -/
theorem update_has_no_conflict_check (s : St) (actor : Actor)
    (aid : String) (u : AptUpdate) :
    ((updateAppointment s actor aid u).status = 200 ∨
      (updateAppointment s actor aid u).status = 404 ∨
      (updateAppointment s actor aid u).status = 403)
    ∧ (updateAppointment s actor aid u).status ≠ 409
    ∧ ∀ a, getApt s aid = some a →
        (a.userId = actor.id ∨ actor.role.isStaff = true) →
        ∃ s2, updateAppointment s actor aid u = .ok s2 (applyUpdate a u)
          ∧ getApt s2 aid = some (applyUpdate a u) := by
  refine ⟨?_, ?_, ?_⟩
  · rcases hE : updateAppointment s actor aid u with _ | _ | _ <;>
      simp [UpdateAptResult.status]
  · rcases hE : updateAppointment s actor aid u with _ | _ | _ <;>
      simp [UpdateAptResult.status]
  · intro a hget hauth
    have hcond : ¬ (a.userId ≠ actor.id ∧ actor.role.isStaff = false) := by
      rcases hauth with hh | hh
      · exact fun hc => hc.1 hh
      · intro hc
        rw [hh] at hc
        cases hc.2
    have haid : a.id = aid := by
      have := List.find?_some hget
      simpa using this
    have hmem : a ∈ s.apts := List.mem_of_find?_eq_some hget
    simp only [updateAppointment, hget]
    rw [if_neg hcond]
    refine ⟨_, rfl, ?_⟩
    unfold getApt
    exact find?_map_replace s.apts aid (applyUpdate a u) haid ⟨a, hmem, haid⟩

theorem update_has_no_conflict_check_witness :
    getApt exUserSt "appointment:1" = some exApt1
    ∧ hasConflict exUserSt 86400000 = true
    ∧ ∃ s2, updateAppointment exUserSt exOwner "appointment:1"
        { status := none, dateTime := some 86400000, reason := none,
          petName := none }
        = .ok s2 (applyUpdate exApt1
            { status := none, dateTime := some 86400000, reason := none,
              petName := none }) := by
  have h := (update_has_no_conflict_check exUserSt exOwner "appointment:1"
    { status := none, dateTime := some 86400000, reason := none,
      petName := none }).2.2 exApt1 (by decide) (Or.inl (by decide))
  obtain ⟨s2, h1, _⟩ := h
  exact ⟨by decide, by decide, s2, h1⟩

/-- C7. A cancelled appointment never conflicts with any candidate time,
its removal leaves the conflict scan unchanged, it produces no reminder,
the missed predicate rejects it, and its removal leaves the missed count
of the dashboard unchanged. -/
theorem cancelled_excluded (a : AptRec) (h : a.status = .cancelled) :
    (∀ t, conflictsWith t a = false)
    ∧ (∀ s t, hasConflict s t =
        ((s.apts.filter (fun x => x ≠ a)).any (conflictsWith t)))
    ∧ (∀ s u now, a ∈ userApts s u →
        ((userApts s u).map (fun x => x.id)).Nodup →
        ∀ r ∈ getReminders s u now, r.id ≠ RemId.apt a.id)
    ∧ (∀ now, isMissed now a = false)
    ∧ (∀ s now tzOff, (dashboardStats s now tzOff).missedAppointments =
        ((s.apts.filter (fun x => x ≠ a)).filter (isMissed now)).length) := by
  have hconf : ∀ t, conflictsWith t a = false := by
    intro t
    unfold conflictsWith
    rw [if_pos h]
  have hmiss : ∀ now, isMissed now a = false := by
    intro now
    unfold isMissed
    rw [h]
    rfl
  refine ⟨hconf, ?_, ?_, hmiss, ?_⟩
  · intro s t
    rw [any_ne_of_false s.apts (conflictsWith t) a (hconf t)]
    rfl
  · intro s u now hmem hnd r hr hid
    rcases (mem_getReminders s u now r).mp hr with ⟨x, hx, hsome⟩ | ⟨p, _, hsome⟩
    · have hx2 := List.mem_filter.mp hx
      have hrid : r.id = RemId.apt x.id := by
        unfold aptReminder at hsome
        by_cases h1 : daysUntil x.dateTime now ≤ 7 ∧
            0 ≤ daysUntil x.dateTime now
        · rw [if_pos h1] at hsome
          by_cases h2 : RemId.apt x.id ∈ dismissedOf s u
          · rw [if_pos h2] at hsome
            cases hsome
          · rw [if_neg h2] at hsome
            cases hsome
            rfl
        · rw [if_neg h1] at hsome
          cases hsome
      have hideq : x.id = a.id := by
        rw [hrid] at hid
        exact RemId.apt.inj hid
      have hxa : x = a := List.inj_on_of_nodup_map hnd hx2.1 hmem hideq
      have hpend : x.status = .pending := by simpa using hx2.2
      rw [hxa, h] at hpend
      cases hpend
    · have hrid : ∃ v, r.id = RemId.vac p.id v := by
        unfold vacReminder at hsome
        cases hv : p.nextVaccinationDate with
        | none =>
          simp only [hv] at hsome
          cases hsome
        | some v =>
          simp only [hv] at hsome
          by_cases h1 : daysUntil v now ≤ 14 ∧ -7 ≤ daysUntil v now
          · rw [if_pos h1] at hsome
            by_cases h2 : RemId.vac p.id v ∈ dismissedOf s u
            · rw [if_pos h2] at hsome
              cases hsome
            · rw [if_neg h2] at hsome
              cases hsome
              exact ⟨v, rfl⟩
          · rw [if_neg h1] at hsome
            cases hsome
      obtain ⟨v, hv⟩ := hrid
      rw [hv] at hid
      cases hid
  · intro s now tzOff
    rw [filter_ne_of_false s.apts (isMissed now) a (hmiss now)]
    rfl

theorem cancelled_excluded_witness :
    exCancelledApt.status = .cancelled
    ∧ conflictsWith 0 exCancelledApt = false
    ∧ isMissed 1000 exCancelledApt = false := by
  have h := cancelled_excluded exCancelledApt rfl
  exact ⟨rfl, h.1 0, h.2.2.2.1 1000⟩

theorem mkAptReminder_id (now : Int) (a : AptRec) :
    (mkAptReminder now a).id = RemId.apt a.id := rfl

theorem mkVacReminder_id (now : Int) (p : PetRec) (v : Int) :
    (mkVacReminder now p v).id = RemId.vac p.id v := rfl

theorem aptReminder_eq_some (now : Int) (dism : List RemId) (x : AptRec)
    (r : Reminder) :
    aptReminder now dism x = some r ↔
      (daysUntil x.dateTime now ≤ 7 ∧ 0 ≤ daysUntil x.dateTime now ∧
       RemId.apt x.id ∉ dism ∧ r = mkAptReminder now x) := by
  unfold aptReminder
  by_cases h1 : daysUntil x.dateTime now ≤ 7 ∧ 0 ≤ daysUntil x.dateTime now
  · rw [if_pos h1]
    by_cases h2 : RemId.apt x.id ∈ dism
    · rw [if_pos h2]
      constructor
      · intro hh
        cases hh
      · rintro ⟨_, _, hnd, _⟩
        exact absurd h2 hnd
    · rw [if_neg h2]
      constructor
      · intro hh
        cases hh
        exact ⟨h1.1, h1.2, h2, rfl⟩
      · rintro ⟨_, _, _, rfl⟩
        rfl
  · rw [if_neg h1]
    constructor
    · intro hh
      cases hh
    · rintro ⟨hh1, hh2, _, _⟩
      exact absurd ⟨hh1, hh2⟩ h1

theorem vacReminder_eq_some (now : Int) (dism : List RemId) (p : PetRec)
    (r : Reminder) :
    vacReminder now dism p = some r ↔
      ∃ v, p.nextVaccinationDate = some v ∧ daysUntil v now ≤ 14 ∧
        -7 ≤ daysUntil v now ∧ RemId.vac p.id v ∉ dism ∧
        r = mkVacReminder now p v := by
  unfold vacReminder
  cases hv : p.nextVaccinationDate with
  | none => simp
  | some v =>
    simp only [Option.some.injEq]
    by_cases h1 : daysUntil v now ≤ 14 ∧ -7 ≤ daysUntil v now
    · rw [if_pos h1]
      by_cases h2 : RemId.vac p.id v ∈ dism
      · rw [if_pos h2]
        constructor
        · intro hh
          cases hh
        · rintro ⟨v2, rfl, _, _, hnd, _⟩
          exact absurd h2 hnd
      · rw [if_neg h2]
        constructor
        · intro hh
          cases hh
          exact ⟨v, rfl, h1.1, h1.2, h2, rfl⟩
        · rintro ⟨v2, rfl, _, _, _, rfl⟩
          rfl
    · rw [if_neg h1]
      constructor
      · intro hh
        cases hh
      · rintro ⟨v2, rfl, hh1, hh2, _, _⟩
        exact absurd ⟨hh1, hh2⟩ h1

theorem mkAptReminder_priority (now : Int) (a : AptRec) :
    (mkAptReminder now a).priority = .high ↔
      daysUntil a.dateTime now ≤ 1 := by
  unfold mkAptReminder
  by_cases hh : daysUntil a.dateTime now ≤ 1
  · simp [hh]
  · simp [hh]

theorem mkVacReminder_priority (now : Int) (p : PetRec) (v : Int) :
    (mkVacReminder now p v).priority = .high ↔ daysUntil v now ≤ 0 := by
  unfold mkVacReminder
  by_cases hh : daysUntil v now ≤ 0
  · simp [hh]
  · simp [hh]

/-- C6. An appointment of the requesting user emits its reminder exactly
when its status is pending, the ceiling day distance lies between 0 and 7,
and its reminder id is not dismissed, with high priority exactly when the
distance is at most 1; a pet of the user with a next vaccination date
emits its reminder exactly when the distance lies between -7 and 14 and
its reminder id is not dismissed, with high priority exactly when the
distance is at most 0. -/
theorem reminder_windows (s : St) (u : String) (now : Int)
    (hA : ((userApts s u).map (fun a => a.id)).Nodup)
    (hP : ((userPets s u).map (fun p => p.id)).Nodup) :
    (∀ a ∈ userApts s u,
      (mkAptReminder now a ∈ getReminders s u now ↔
        (a.status = .pending ∧ 0 ≤ daysUntil a.dateTime now ∧
         daysUntil a.dateTime now ≤ 7 ∧
         RemId.apt a.id ∉ dismissedOf s u))
      ∧ ((mkAptReminder now a).priority = .high ↔
          daysUntil a.dateTime now ≤ 1))
    ∧ (∀ p ∈ userPets s u, ∀ v, p.nextVaccinationDate = some v →
      (mkVacReminder now p v ∈ getReminders s u now ↔
        (-7 ≤ daysUntil v now ∧ daysUntil v now ≤ 14 ∧
         RemId.vac p.id v ∉ dismissedOf s u))
      ∧ ((mkVacReminder now p v).priority = .high ↔
          daysUntil v now ≤ 0)) := by
  constructor
  · intro a ha
    refine ⟨?_, mkAptReminder_priority now a⟩
    constructor
    · intro hmem
      rcases (mem_getReminders s u now (mkAptReminder now a)).mp hmem with
        ⟨x, hx, hsome⟩ | ⟨p, hp, hsome⟩
      · obtain ⟨h7, h0, hnd, heq⟩ := (aptReminder_eq_some _ _ _ _).mp hsome
        have h3 := congrArg Reminder.id heq
        rw [mkAptReminder_id, mkAptReminder_id] at h3
        have hid : x.id = a.id := (RemId.apt.inj h3).symm
        have hx2 := List.mem_filter.mp hx
        have hxa : x = a := List.inj_on_of_nodup_map hA hx2.1 ha hid
        subst hxa
        have hpend : x.status = .pending := by simpa using hx2.2
        exact ⟨hpend, h0, h7, hnd⟩
      · obtain ⟨v, hv, _, _, _, heq⟩ := (vacReminder_eq_some _ _ _ _).mp hsome
        have h3 := congrArg Reminder.id heq
        rw [mkAptReminder_id, mkVacReminder_id] at h3
        exact RemId.noConfusion h3
    · rintro ⟨hpend, h0, h7, hnd⟩
      apply (mem_getReminders s u now (mkAptReminder now a)).mpr
      left
      refine ⟨a, ?_, ?_⟩
      · exact List.mem_filter.mpr ⟨ha, by simpa using hpend⟩
      · exact (aptReminder_eq_some _ _ _ _).mpr ⟨h7, h0, hnd, rfl⟩
  · intro p hp v hv
    refine ⟨?_, mkVacReminder_priority now p v⟩
    constructor
    · intro hmem
      rcases (mem_getReminders s u now (mkVacReminder now p v)).mp hmem with
        ⟨x, hx, hsome⟩ | ⟨p2, hp2, hsome⟩
      · obtain ⟨_, _, _, heq⟩ := (aptReminder_eq_some _ _ _ _).mp hsome
        have h3 := congrArg Reminder.id heq
        rw [mkVacReminder_id, mkAptReminder_id] at h3
        exact RemId.noConfusion h3
      · obtain ⟨v2, hv2, h14, h7, hnd, heq⟩ :=
          (vacReminder_eq_some _ _ _ _).mp hsome
        have h3 := congrArg Reminder.id heq
        rw [mkVacReminder_id, mkVacReminder_id] at h3
        obtain ⟨hid, hveq⟩ := RemId.vac.inj h3
        have hpp : p2 = p := List.inj_on_of_nodup_map hP hp2 hp hid.symm
        subst hpp
        subst hveq
        exact ⟨h7, h14, hnd⟩
    · rintro ⟨h7, h14, hnd⟩
      apply (mem_getReminders s u now (mkVacReminder now p v)).mpr
      right
      exact ⟨p, hp,
        (vacReminder_eq_some _ _ _ _).mpr ⟨v, hv, h14, h7, hnd, rfl⟩⟩

theorem reminder_windows_witness :
    ((userApts exUserSt "u1").map (fun a => a.id)).Nodup
    ∧ (mkAptReminder 0 exApt1 ∈ getReminders exUserSt "u1" 0 ↔
        (exApt1.status = .pending ∧ 0 ≤ daysUntil exApt1.dateTime 0 ∧
         daysUntil exApt1.dateTime 0 ≤ 7 ∧
         RemId.apt exApt1.id ∉ dismissedOf exUserSt "u1")) := by
  have h := reminder_windows exUserSt "u1" 0 (by decide) (by decide)
  exact ⟨by decide, (h.1 exApt1 (by decide)).1⟩

theorem idx_append_consistent {α : Type} (records : List α) (newRec : α)
    (key idOf : α → String) (idx : String → List String) (u i : String)
    (hcons : ∀ o i2, i2 ∈ idx o ↔ ∃ r ∈ records, idOf r = i2 ∧ key r = o)
    (hkey : key newRec = u) (hid : idOf newRec = i) :
    ∀ o i2, i2 ∈ setIdx idx u (idx u ++ [i]) o ↔
      ∃ r ∈ records ++ [newRec], idOf r = i2 ∧ key r = o := by
  intro o i2
  by_cases ho : o = u
  · subst ho
    rw [setIdx_eval, if_pos rfl]
    simp only [List.mem_append, List.mem_singleton]
    constructor
    · rintro (hm | rfl)
      · obtain ⟨r, hr, h1, h2⟩ := (hcons o i2).mp hm
        exact ⟨r, Or.inl hr, h1, h2⟩
      · exact ⟨newRec, Or.inr rfl, hid, hkey⟩
    · rintro ⟨r, hr | rfl, h1, h2⟩
      · exact Or.inl ((hcons o i2).mpr ⟨r, hr, h1, h2⟩)
      · right
        rw [← h1, hid]
  · rw [setIdx_eval, if_neg ho]
    rw [hcons o i2]
    constructor
    · rintro ⟨r, hr, h1, h2⟩
      exact ⟨r, List.mem_append.mpr (Or.inl hr), h1, h2⟩
    · rintro ⟨r, hr, h1, h2⟩
      rcases List.mem_append.mp hr with hr2 | hr2
      · exact ⟨r, hr2, h1, h2⟩
      · rw [List.mem_singleton] at hr2
        subst hr2
        exact absurd (h2.symm.trans hkey) ho

theorem idx_remove_consistent {α : Type} (records : List α)
    (key idOf : α → String) (idx : String → List String) (target : α)
    (pid : String)
    (hcons : ∀ o i2, i2 ∈ idx o ↔ ∃ r ∈ records, idOf r = i2 ∧ key r = o)
    (hnd : (records.map idOf).Nodup)
    (hmem : target ∈ records) (hid : idOf target = pid) :
    ∀ o i2,
      i2 ∈ setIdx idx (key target)
          ((idx (key target)).filter (fun x => x ≠ pid)) o ↔
        ∃ r ∈ records.filter (fun x => idOf x ≠ pid),
          idOf r = i2 ∧ key r = o := by
  intro o i2
  by_cases ho : o = key target
  · subst ho
    rw [setIdx_eval, if_pos rfl]
    constructor
    · intro hm
      obtain ⟨hmm, hne0⟩ := List.mem_filter.mp hm
      have hne : i2 ≠ pid := by simpa using hne0
      obtain ⟨r, hr, h1, h2⟩ := (hcons (key target) i2).mp hmm
      refine ⟨r, List.mem_filter.mpr ⟨hr, ?_⟩, h1, h2⟩
      simp [h1, hne]
    · rintro ⟨r, hrf, h1, h2⟩
      obtain ⟨hr, hne0⟩ := List.mem_filter.mp hrf
      have hne : idOf r ≠ pid := by simpa using hne0
      refine List.mem_filter.mpr ⟨(hcons (key target) i2).mpr ⟨r, hr, h1, h2⟩, ?_⟩
      rw [← h1]
      simpa using hne
  · rw [setIdx_eval, if_neg ho]
    rw [hcons o i2]
    constructor
    · rintro ⟨r, hr, h1, h2⟩
      refine ⟨r, List.mem_filter.mpr ⟨hr, ?_⟩, h1, h2⟩
      have hne : idOf r ≠ pid := by
        intro hcontra
        have hreq : r = target :=
          List.inj_on_of_nodup_map hnd hr hmem (hcontra.trans hid.symm)
        rw [hreq] at h2
        exact ho h2.symm
      simpa using hne
    · rintro ⟨r, hrf, h1, h2⟩
      exact ⟨r, List.mem_of_mem_filter hrf, h1, h2⟩

theorem fresh_nodup_append {α : Type} (l : List α) (x : α) (f : α → String)
    (hnd : (l.map f).Nodup) (hf : ∀ y ∈ l, f y ≠ f x) :
    ((l ++ [x]).map f).Nodup := by
  rw [List.map_append]
  refine List.Nodup.append hnd (List.nodup_singleton _) ?_
  intro a ha hb
  simp only [List.map_cons, List.map_nil, List.mem_singleton] at hb
  obtain ⟨y, hy, hya⟩ := List.mem_map.mp ha
  subst hb
  exact hf y hy hya

theorem inv_initSt : Inv initSt := by
  refine ⟨List.nodup_nil, List.nodup_nil, List.nodup_nil, ?_, ?_, ?_⟩ <;>
    intro k i2 <;> simp [initSt]

theorem inv_step (s : St) (op : Op) (h : Inv s) (hf : freshOk s op = true) :
    Inv (step s op) := by
  obtain ⟨hnp, hna, hnr, hpi, hai, hri⟩ := h
  cases op with
  | createPet u i d =>
    have hfresh : ∀ p ∈ s.pets, p.id ≠ i := by
      simp only [freshOk, List.all_eq_true] at hf
      intro p hp
      simpa using hf p hp
    cases hfind : (userPets s u).find? (isDuplicate d) with
    | some m =>
      simp only [step, createPet, hfind]
      exact ⟨hnp, hna, hnr, hpi, hai, hri⟩
    | none =>
      simp only [step, createPet, hfind]
      refine ⟨?_, hna, hnr, ?_, hai, hri⟩
      · exact fresh_nodup_append s.pets (mkPet u i d) (fun p => p.id) hnp
          hfresh
      · exact idx_append_consistent s.pets (mkPet u i d)
          (fun p => p.ownerId) (fun p => p.id) s.petIdx u i hpi rfl rfl
  | deletePet a pid =>
    cases hg : getPet s pid with
    | none =>
      simp only [step, deletePet, hg]
      exact ⟨hnp, hna, hnr, hpi, hai, hri⟩
    | some pet =>
      have hpmem : pet ∈ s.pets := List.mem_of_find?_eq_some hg
      have hpid : pet.id = pid := by
        have := List.find?_some hg
        simpa using this
      by_cases hAuth : pet.ownerId ≠ a.id ∧ a.role.isStaff = false
      · simp only [step, deletePet, hg, if_pos hAuth]
        exact ⟨hnp, hna, hnr, hpi, hai, hri⟩
      · simp only [step, deletePet, hg, if_neg hAuth]
        refine ⟨?_, hna, hnr, ?_, hai, hri⟩
        · exact List.Nodup.sublist
            (List.Sublist.map _ (List.filter_sublist _)) hnp
        · exact idx_remove_consistent s.pets (fun p => p.ownerId)
            (fun p => p.id) s.petIdx pet pid hpi hnp hpmem hpid
  | createApt a i d =>
    have hfresh : ∀ x ∈ s.apts, x.id ≠ i := by
      simp only [freshOk, List.all_eq_true] at hf
      intro x hx
      simpa using hf x hx
    cases hb : isBlocked s d.dateTime with
    | true =>
      simp only [step, createAppointment, hb]
      exact ⟨hnp, hna, hnr, hpi, hai, hri⟩
    | false =>
      cases hc : hasConflict s d.dateTime with
      | true =>
        simp only [step, createAppointment, hb, hc]
        exact ⟨hnp, hna, hnr, hpi, hai, hri⟩
      | false =>
        cases hres : resolveUserId s a d with
        | none =>
          simp only [step, createAppointment, hb, hc, hres]
          exact ⟨hnp, hna, hnr, hpi, hai, hri⟩
        | some uid =>
          simp only [step, createAppointment, hb, hc, hres]
          refine ⟨hnp, ?_, hnr, hpi, ?_, hri⟩
          · exact fresh_nodup_append s.apts
              { id := i, userId := uid, petId := d.petId,
                petName := d.petName, dateTime := d.dateTime,
                reason := d.reason, status := .pending }
              (fun x => x.id) hna hfresh
          · exact idx_append_consistent s.apts
              { id := i, userId := uid, petId := d.petId,
                petName := d.petName, dateTime := d.dateTime,
                reason := d.reason, status := .pending }
              (fun x => x.userId) (fun x => x.id) s.aptIdx uid i hai rfl rfl
  | createRec a i d =>
    have hfresh : ∀ r ∈ s.recs, r.id ≠ i := by
      simp only [freshOk, List.all_eq_true] at hf
      intro r hr
      simpa using hf r hr
    simp only [step, createHealthRecord]
    refine ⟨hnp, hna, ?_, hpi, hai, ?_⟩
    · exact fresh_nodup_append s.recs
        { id := i, petId := d.petId, title := d.title, addedBy := a.id }
        (fun r => r.id) hnr hfresh
    · exact idx_append_consistent s.recs
        { id := i, petId := d.petId, title := d.title, addedBy := a.id }
        (fun r => r.petId) (fun r => r.id) s.recIdx d.petId i hri rfl rfl

theorem inv_run (ops : List Op) :
    ∀ s, Inv s → wfRun s ops = true → Inv (run s ops) := by
  induction ops with
  | nil =>
    intro s h _
    exact h
  | cons op rest ih =>
    intro s h hw
    simp only [wfRun, Bool.and_eq_true] at hw
    exact ih (step s op) (inv_step s op h hw.1) hw.2

/-- C2. After any sequence of pet, appointment and health record creations
and pet deletions with fresh ids starting from the empty store, every
owner pet index list, every user appointment index list and every pet
health record index list holds exactly the ids of the live records
referencing that key: no dangling ids and no missing ids. -/
theorem index_lists_consistent (ops : List Op)
    (hw : wfRun initSt ops = true) : indexConsistent (run initSt ops) :=
  (inv_run ops initSt inv_initSt hw).2.2.2

theorem index_lists_consistent_witness :
    wfRun initSt exOps = true ∧ indexConsistent (run initSt exOps) :=
  ⟨by decide, index_lists_consistent exOps (by decide)⟩

end VetClinic
